import Mathlib

/-!
Shallow embedding of the audio-player core of `src/example/ebiten/glfwdriver.cpp`
(class `GLFWDriver::AudioPlayer`).  The mutable state guarded by `mutex_` is the
record below; the `const` format fields are carried in the same record since the
C++ object holds them as members.  Each member function becomes a pure state
transformer; the condition-variable waits in `Write` and `Loop` become explicit
hypotheses (the predicate the wait unblocks on), and the body that runs after
the wait is the transformer.  The `on_written_` callback is modelled as an
emitted event.  C++ `int` is modelled as `Int`, `double volume_` as `Rat`.
-/

namespace GLFWDriver

/-- State of one `GLFWDriver::AudioPlayer`: the four `const` construction
parameters, then the mutable fields with their C++ initializers
(`volume_ = 1.0`, `ready_to_play_ = 0`, `paused_ = false`, `closed_ = false`). -/
structure AudioPlayer where
  sample_rate : Int
  channel_num : Int
  bit_depth_in_bytes : Int
  buffer_size : Int
  volume : Rat
  ready_to_play : Int
  paused : Bool
  closed : Bool
deriving DecidableEq, Repr

namespace AudioPlayer

/-- `IsWritableImpl` (glfwdriver.cpp lines 224-226):
`(ready_to_play_ < buffer_size_ || closed_) && !paused_`. -/
def IsWritableImpl (s : AudioPlayer) : Bool :=
  (decide (s.ready_to_play < s.buffer_size) || s.closed) && !s.paused

/-- `IsWritable` (lines 193-196): takes the lock and returns `IsWritableImpl()`;
modelled as returning the boolean together with the (unchanged) state. -/
def IsWritable (s : AudioPlayer) : Bool × AudioPlayer :=
  (IsWritableImpl s, s)

/-- `GetUnplayedBufferSize` (lines 198-201): returns `ready_to_play_`. -/
def GetUnplayedBufferSize (s : AudioPlayer) : Int × AudioPlayer :=
  (s.ready_to_play, s)

/-- `GetVolume` (line 155). -/
def GetVolume (s : AudioPlayer) : Rat × AudioPlayer :=
  (s.volume, s)

/-- `SetVolume` (line 157). -/
def SetVolume (v : Rat) (s : AudioPlayer) : AudioPlayer :=
  { s with volume := v }

/-- `Close(bool immediately)` (lines 146-153): under the lock sets
`paused_ = false` and `closed_ = true`; the parameter is never read. -/
def Close (_im : Bool) (s : AudioPlayer) : AudioPlayer :=
  { s with paused := false, closed := true }

/-- `Pause` (lines 159-168): returns at once if `closed_`, else `paused_ = true`. -/
def Pause (s : AudioPlayer) : AudioPlayer :=
  if s.closed then s else { s with paused := true }

/-- `Play` (lines 170-179): returns at once if `closed_`, else `paused_ = false`. -/
def Play (s : AudioPlayer) : AudioPlayer :=
  if s.closed then s else { s with paused := false }

/-- Body of `Write` (lines 181-191) after `cond_.wait(lock, IsWritableImpl)`
returns: if `closed_` return without mutation, else `ready_to_play_ += length`.
The wait itself is a hypothesis (`IsWritableImpl s = true`) on the theorems. -/
def Write (length : Int) (s : AudioPlayer) : AudioPlayer :=
  if s.closed then s
  else { s with ready_to_play := s.ready_to_play + length }

/-- The predicate of the `cond_.wait` inside `Loop` (lines 207-209):
`(ready_to_play_ >= buffer_size_ || closed_) && !paused_`. -/
def drainCond (s : AudioPlayer) : Bool :=
  (decide (s.buffer_size ≤ s.ready_to_play) || s.closed) && !s.paused

/-- One event the player can emit: the `on_written_()` callback call. -/
inductive AudioEvent where
  | onWritten
deriving DecidableEq, Repr

/-- Body of one iteration of `Loop` (lines 210-214) after the wait returns:
if `closed_` the loop returns (second component `true` means the thread
terminates); else `ready_to_play_ -= buffer_size_` and `on_written_()` is
invoked (recorded in the event list). -/
def LoopStep (s : AudioPlayer) : AudioPlayer × Bool × List AudioEvent :=
  if s.closed then (s, true, [])
  else ({ s with ready_to_play := s.ready_to_play - s.buffer_size }, false,
        [AudioEvent.onWritten])

/-- `bytes_per_sec` as computed in `Loop` (line 217): the `int` product
`sample_rate_ * channel_num_ * bit_depth_in_bytes_`. -/
def bytes_per_sec (s : AudioPlayer) : Int :=
  s.sample_rate * s.channel_num * s.bit_depth_in_bytes

/-- The pacing delay of `Loop` in seconds (lines 218-219):
`buffer_size_ / bytes_per_sec`, the division taken exactly (in `Rat`; the
source computes it in `double`). -/
def paceDuration (s : AudioPlayer) : Rat :=
  (s.buffer_size : Rat) / (bytes_per_sec s : Rat)

/-- The operations a client or the playback thread can perform on the shared
state, for reachability arguments: `write`, `pause`, `play` (resume),
`close`, one completed drain step of `Loop`, and `isWritable`. -/
inductive AudioOp where
  | write (length : Int)
  | pause
  | play
  | close (im : Bool)
  | drain
  | isWritable
deriving DecidableEq, Repr

/-- Effect of one operation on the shared state.  A `drain` only fires when
the `Loop` wait predicate holds (otherwise the playback thread stays blocked
and the state is unchanged); `isWritable` never mutates. -/
def step (s : AudioPlayer) : AudioOp → AudioPlayer
  | .write n => Write n s
  | .pause => Pause s
  | .play => Play s
  | .close im => Close im s
  | .drain => if drainCond s then (LoopStep s).1 else s
  | .isWritable => (IsWritable s).2

/-- Run a sequence of operations from a state. -/
def run (s : AudioPlayer) (ops : List AudioOp) : AudioPlayer :=
  ops.foldl step s

/-- The freshly constructed player (constructor, lines 133-138, together with
the member initializers in glfwdriver.h lines 59-62). -/
def initState (sr cn bd bs : Int) : AudioPlayer :=
  { sample_rate := sr, channel_num := cn, bit_depth_in_bytes := bd,
    buffer_size := bs, volume := 1, ready_to_play := 0,
    paused := false, closed := false }

/-- Total bytes added by the producer `write` operations of a sequence. -/
def writtenBytes : List AudioOp → Int
  | [] => 0
  | AudioOp.write n :: t => n + writtenBytes t
  | _ :: t => writtenBytes t

/-- Total bytes removed by the `drain` operations of a sequence, each removing
one quantum of `bs` bytes. -/
def drainedBytes (bs : Int) : List AudioOp → Int
  | [] => 0
  | AudioOp.drain :: t => bs + drainedBytes bs t
  | _ :: t => drainedBytes bs t

/-- True when the operation is a producer write or a drain step. -/
def isWriteOrDrain : AudioOp → Bool
  | AudioOp.write _ => true
  | AudioOp.drain => true
  | _ => false

/-! ## General lemmas about the embedding -/

theorem run_nil (s : AudioPlayer) : run s [] = s := rfl

theorem run_cons (s : AudioPlayer) (op : AudioOp) (t : List AudioOp) :
    run s (op :: t) = run (step s op) t := rfl

/-! ## Claims -/

/-- Claim C1: for every state of the player, `IsWritable` returns exactly the
predicate (pendingBytes < bufferQuantumBytes OR closed) AND NOT paused, and
leaves the whole state (in particular pendingBytes, paused, closed) unchanged. -/
theorem isWritable_spec (s : AudioPlayer) :
    ((IsWritable s).1 = true ↔
      ((s.ready_to_play < s.buffer_size ∨ s.closed = true) ∧ s.paused = false)) ∧
    (IsWritable s).2 = s := by
  refine ⟨?_, rfl⟩
  simp [IsWritable, IsWritableImpl, Bool.and_eq_true, Bool.or_eq_true,
    decide_eq_true_iff, Bool.not_eq_true']

/-- Claim C5 counterexample: at pendingBytes = 0 < bufferQuantumBytes = 4096,
paused = true, closed = false, the claimed equivalence
(writable iff pendingBytes < quantum or closed) fails: the right side holds
but `IsWritableImpl` is false because the player is paused. -/
theorem isWritable_iff_counterexample :
    ¬ (IsWritableImpl ⟨44100, 2, 2, 4096, 1, 0, true, false⟩ = true ↔
       ((⟨44100, 2, 2, 4096, 1, 0, true, false⟩ : AudioPlayer).ready_to_play <
          (⟨44100, 2, 2, 4096, 1, 0, true, false⟩ : AudioPlayer).buffer_size ∨
        (⟨44100, 2, 2, 4096, 1, 0, true, false⟩ : AudioPlayer).closed = true)) := by
  decide

/-- Claim C5 (amended): over all combinations of the state booleans and
pendingBytes, `isWritable` is true iff (pendingBytes < bufferQuantumBytes or
closed) AND not paused; in particular it is never true while paused, even when
closed. -/
theorem isWritable_exhaustive (s : AudioPlayer) :
    (IsWritableImpl s = true ↔
      ((s.ready_to_play < s.buffer_size ∨ s.closed = true) ∧ s.paused = false)) ∧
    (s.paused = true → IsWritableImpl s = false) := by
  obtain ⟨sr, cn, bd, bs, v, r, p, c⟩ := s
  cases p <;> cases c <;>
    simp [IsWritableImpl, Bool.and_eq_true, Bool.or_eq_true, decide_eq_true_iff]

theorem isWritable_exhaustive_witness :
    IsWritableImpl ⟨44100, 2, 2, 4096, 1, 0, true, true⟩ = false :=
  (isWritable_exhaustive ⟨44100, 2, 2, 4096, 1, 0, true, true⟩).2 rfl

/-- Claim C6: `Close` sets paused := false and closed := true whatever the
prior state and leaves every other field unchanged; it is idempotent; and the
`immediately` flag affects neither the resulting state nor the drain step. -/
theorem close_spec (b b2 : Bool) (s : AudioPlayer) :
    Close b s = { s with paused := false, closed := true } ∧
    Close b (Close b2 s) = Close b s ∧
    Close b s = Close b2 s ∧
    LoopStep (Close b s) = LoopStep (Close b2 s) :=
  ⟨rfl, rfl, rfl, rfl⟩

/-- Claim C7: `Pause` and `Play` are no-ops on a closed player; on a
non-closed player `Pause` sets paused := true and `Play` sets paused := false;
in every case both leave pendingBytes, closed, volume and the stream format
(sample rate, channel count, bytes per sample, quantum) unchanged. -/
theorem pause_play_spec (s : AudioPlayer) :
    (s.closed = true → Pause s = s ∧ Play s = s) ∧
    (s.closed = false → Pause s = { s with paused := true } ∧
      Play s = { s with paused := false }) ∧
    ((Pause s).ready_to_play = s.ready_to_play ∧ (Pause s).closed = s.closed ∧
      (Pause s).volume = s.volume ∧ (Pause s).sample_rate = s.sample_rate ∧
      (Pause s).channel_num = s.channel_num ∧
      (Pause s).bit_depth_in_bytes = s.bit_depth_in_bytes ∧
      (Pause s).buffer_size = s.buffer_size) ∧
    ((Play s).ready_to_play = s.ready_to_play ∧ (Play s).closed = s.closed ∧
      (Play s).volume = s.volume ∧ (Play s).sample_rate = s.sample_rate ∧
      (Play s).channel_num = s.channel_num ∧
      (Play s).bit_depth_in_bytes = s.bit_depth_in_bytes ∧
      (Play s).buffer_size = s.buffer_size) := by
  by_cases h : s.closed <;> simp [Pause, Play, h]

theorem pause_play_spec_witness :
    Pause (initState 44100 2 2 4096) =
      { initState 44100 2 2 4096 with paused := true } :=
  ((pause_play_spec (initState 44100 2 2 4096)).2.1 rfl).1

/-- Claim C2: for every lengthBytes ≥ 0, once the wait in `Write` has
completed (its predicate `IsWritableImpl` holds — in particular when a close
arrived while the write was blocked): if the player is closed the write
returns with the state, hence pendingBytes, unchanged; if it is not closed the
write increases pendingBytes by exactly lengthBytes and changes nothing else. -/
theorem write_spec (s : AudioPlayer) (len : Int) (_hlen : 0 ≤ len)
    (_hw : IsWritableImpl s = true) :
    (s.closed = true → Write len s = s) ∧
    (s.closed = false →
      Write len s = { s with ready_to_play := s.ready_to_play + len }) := by
  constructor <;> intro h <;> simp [Write, h]

theorem write_spec_witness :
    Write 100 (initState 44100 2 2 4096) =
      { initState 44100 2 2 4096 with ready_to_play := 100 } :=
  (write_spec (initState 44100 2 2 4096) 100 (by decide) (by decide)).2 rfl

/-- Claim C3: one iteration of `Loop` proceeds only when its wait predicate
(pendingBytes ≥ bufferQuantumBytes OR closed) AND NOT paused holds (the
hypothesis); if closed it terminates the loop with the state unchanged;
otherwise a full quantum is available (never a partial one), pendingBytes
decreases by exactly bufferQuantumBytes, and `on_written_` is invoked. -/
theorem loopStep_spec (s : AudioPlayer) (h : drainCond s = true) :
    (s.closed = true → LoopStep s = (s, true, [])) ∧
    (s.closed = false →
      s.buffer_size ≤ s.ready_to_play ∧
      LoopStep s =
        ({ s with ready_to_play := s.ready_to_play - s.buffer_size }, false,
          [AudioEvent.onWritten])) := by
  constructor
  · intro hc; simp [LoopStep, hc]
  · intro hc
    refine ⟨?_, by simp [LoopStep, hc]⟩
    simp only [drainCond, hc, Bool.or_false, Bool.and_eq_true,
      decide_eq_true_iff, Bool.not_eq_true'] at h
    exact h.1

theorem loopStep_spec_witness :
    LoopStep ⟨44100, 2, 2, 4096, 1, 4096, false, false⟩ =
      (⟨44100, 2, 2, 4096, 1, 0, false, false⟩, false, [AudioEvent.onWritten]) := by
  have h := loopStep_spec ⟨44100, 2, 2, 4096, 1, 4096, false, false⟩ (by decide)
  rw [(h.2 rfl).2]
  decide

/-- Claim C9: the pacing delay after a drain step equals
bufferQuantumBytes / bytesPerSecond seconds, where bytesPerSecond is the exact
integer product sampleRateHz × channelCount × bytesPerSample of the fixed
stream format (the division taken exactly, in `Rat`). -/
theorem paceDuration_spec (s : AudioPlayer) :
    bytes_per_sec s = s.sample_rate * s.channel_num * s.bit_depth_in_bytes ∧
    paceDuration s =
      (s.buffer_size : Rat) /
        ((s.sample_rate : Rat) * (s.channel_num : Rat) *
          (s.bit_depth_in_bytes : Rat)) := by
  refine ⟨rfl, ?_⟩
  simp [paceDuration, bytes_per_sec]

/-- Every single operation preserves `closed = true`. -/
theorem closed_of_step (s : AudioPlayer) (op : AudioOp) (h : s.closed = true) :
    (step s op).closed = true := by
  cases op <;>
    simp [step, Write, Pause, Play, Close, IsWritable, LoopStep, drainCond, h]

/-- Claim C8: the closed flag is monotonic: from any state with closed = true,
no sequence of operations (write, isWritable, pause, resume, close, drain)
ever makes it false again. -/
theorem closed_monotonic (s : AudioPlayer) (ops : List AudioOp)
    (h : s.closed = true) : (run s ops).closed = true := by
  induction ops generalizing s with
  | nil => exact h
  | cons op t ih => exact ih (step s op) (closed_of_step s op h)

theorem closed_monotonic_witness :
    (run ⟨44100, 2, 2, 4096, 1, 0, false, true⟩
        [AudioOp.pause, AudioOp.play, AudioOp.write 5, AudioOp.drain,
          AudioOp.close false, AudioOp.isWritable]).closed = true :=
  closed_monotonic ⟨44100, 2, 2, 4096, 1, 0, false, true⟩
    [AudioOp.pause, AudioOp.play, AudioOp.write 5, AudioOp.drain,
      AudioOp.close false, AudioOp.isWritable] rfl

/-- One operation preserves the invariant closed = true → paused = false. -/
theorem closed_unpaused_of_step (s : AudioPlayer) (op : AudioOp)
    (h : s.closed = true → s.paused = false) :
    (step s op).closed = true → (step s op).paused = false := by
  by_cases hc : s.closed = true
  · have hp := h hc
    cases op <;>
      simp [step, Write, Pause, Play, Close, IsWritable, LoopStep, drainCond,
        hc, hp]
  · have hc2 : s.closed = false := by simpa using hc
    cases op with
    | write n => simp [step, Write, hc2]
    | pause => simp [step, Pause, hc2]
    | play => simp [step, Play, hc2]
    | close im => simp [step, Close]
    | drain =>
        simp only [step]
        split
        · simp [LoopStep, hc2]
        · simp [hc2]
    | isWritable => simp [step, IsWritable, hc2]

/-- The invariant closed = true → paused = false is preserved by any run. -/
theorem closed_unpaused_of_run (s : AudioPlayer) (ops : List AudioOp)
    (h : s.closed = true → s.paused = false) :
    (run s ops).closed = true → (run s ops).paused = false := by
  induction ops generalizing s with
  | nil => exact h
  | cons op t ih => exact ih (step s op) (closed_unpaused_of_step s op h)

/-- Claim C10: in every state reachable from the freshly constructed player by
write, pause, resume, close, drain and isWritable operations, closed = true
implies paused = false: the paused-and-closed combination never occurs. -/
theorem closed_never_paused (sr cn bd bs : Int) (ops : List AudioOp)
    (h : (run (initState sr cn bd bs) ops).closed = true) :
    (run (initState sr cn bd bs) ops).paused = false :=
  closed_unpaused_of_run (initState sr cn bd bs) ops (fun _ => rfl) h

theorem closed_never_paused_witness :
    (run (initState 44100 2 2 4096)
        [AudioOp.write 10, AudioOp.pause, AudioOp.close true]).paused = false :=
  closed_never_paused 44100 2 2 4096
    [AudioOp.write 10, AudioOp.pause, AudioOp.close true] (by decide)

/-- Core conservation lemma: from a non-closed, non-paused state, running any
sequence of writes and drains whose drained total never exceeds the bytes
available at that point leaves `ready_to_play` at start + written − drained,
and keeps the player non-closed, non-paused, with the same quantum. -/
theorem run_write_drain (ops : List AudioOp) (s : AudioPlayer)
    (hops : ∀ op ∈ ops, isWriteOrDrain op = true)
    (hc : s.closed = false) (hp : s.paused = false)
    (hpre : ∀ k, k ≤ ops.length →
      drainedBytes s.buffer_size (ops.take k) ≤
        s.ready_to_play + writtenBytes (ops.take k)) :
    (run s ops).ready_to_play =
        s.ready_to_play + writtenBytes ops - drainedBytes s.buffer_size ops ∧
      (run s ops).closed = false ∧ (run s ops).paused = false ∧
      (run s ops).buffer_size = s.buffer_size := by
  revert hops hc hp hpre
  induction ops generalizing s with
  | nil =>
    intro _ hc hp _
    simp [run, writtenBytes, drainedBytes, hc, hp]
  | cons op t ih =>
    intro hops hc hp hpre
    have hop := hops op (List.mem_cons_self op t)
    have hopst : ∀ x ∈ t, isWriteOrDrain x = true :=
      fun x hx => hops x (List.mem_cons_of_mem op hx)
    cases op with
    | write n =>
      have hstep : step s (AudioOp.write n) =
          { s with ready_to_play := s.ready_to_play + n } := by
        simp [step, Write, hc]
      have hpre2 : ∀ k, k ≤ t.length →
          drainedBytes s.buffer_size (t.take k) ≤
            (s.ready_to_play + n) + writtenBytes (t.take k) := by
        intro k hk
        have h1 := hpre (k + 1) (by simpa using Nat.succ_le_succ hk)
        simp only [List.take_succ_cons, drainedBytes, writtenBytes] at h1
        omega
      obtain ⟨ih1, ih2, ih3, ih4⟩ :=
        ih { s with ready_to_play := s.ready_to_play + n } hopst hc hp hpre2
      have ih1b :
          (run { s with ready_to_play := s.ready_to_play + n } t).ready_to_play
            = s.ready_to_play + n + writtenBytes t -
              drainedBytes s.buffer_size t := ih1
      rw [run_cons, hstep]
      refine ⟨?_, ih2, ih3, ih4⟩
      have hW : writtenBytes (AudioOp.write n :: t) = n + writtenBytes t := by
        simp [writtenBytes]
      have hD : drainedBytes s.buffer_size (AudioOp.write n :: t) =
          drainedBytes s.buffer_size t := by
        simp [drainedBytes]
      rw [hW, hD]
      omega
    | pause => simp [isWriteOrDrain] at hop
    | play => simp [isWriteOrDrain] at hop
    | close im => simp [isWriteOrDrain] at hop
    | isWritable => simp [isWriteOrDrain] at hop
    | drain =>
      have hbs : s.buffer_size ≤ s.ready_to_play := by
        have h1 := hpre 1 (by simp)
        simp only [List.take_succ_cons, List.take_zero, drainedBytes,
          writtenBytes] at h1
        omega
      have hcond : drainCond s = true := by
        simp [drainCond, hc, hp, hbs]
      have hstep : step s AudioOp.drain =
          { s with ready_to_play := s.ready_to_play - s.buffer_size } := by
        simp [step, hcond, LoopStep, hc]
      have hpre2 : ∀ k, k ≤ t.length →
          drainedBytes s.buffer_size (t.take k) ≤
            (s.ready_to_play - s.buffer_size) + writtenBytes (t.take k) := by
        intro k hk
        have h1 := hpre (k + 1) (by simpa using Nat.succ_le_succ hk)
        simp only [List.take_succ_cons, drainedBytes, writtenBytes] at h1
        omega
      obtain ⟨ih1, ih2, ih3, ih4⟩ :=
        ih { s with ready_to_play := s.ready_to_play - s.buffer_size }
          hopst hc hp hpre2
      have ih1b :
          (run { s with ready_to_play := s.ready_to_play - s.buffer_size }
            t).ready_to_play
            = s.ready_to_play - s.buffer_size + writtenBytes t -
              drainedBytes s.buffer_size t := ih1
      rw [run_cons, hstep]
      refine ⟨?_, ih2, ih3, ih4⟩
      have hW : writtenBytes (AudioOp.drain :: t) = writtenBytes t := by
        simp [writtenBytes]
      have hD : drainedBytes s.buffer_size (AudioOp.drain :: t) =
          s.buffer_size + drainedBytes s.buffer_size t := by
        simp [drainedBytes]
      rw [hW, hD]
      omega

/-- Claim C4: conservation law: starting from the fresh player (pendingBytes
= 0, not paused, not closed), any interleaving of completed non-closed writes
totaling W bytes and completed drain steps totaling D bytes, with D ≤ W at
every point, leaves pendingBytes = W − D. -/
theorem conservation (sr cn bd bs : Int) (ops : List AudioOp)
    (hops : ∀ op ∈ ops, isWriteOrDrain op = true)
    (hpre : ∀ k, k ≤ ops.length →
      drainedBytes bs (ops.take k) ≤ writtenBytes (ops.take k)) :
    (run (initState sr cn bd bs) ops).ready_to_play =
      writtenBytes ops - drainedBytes bs ops := by
  have h := run_write_drain ops (initState sr cn bd bs) hops rfl rfl
    (fun k hk => by simpa [initState] using hpre k hk)
  simpa [initState] using h.1

theorem conservation_witness :
    (run (initState 44100 2 2 4096)
        [AudioOp.write 4096, AudioOp.drain, AudioOp.write 100]).ready_to_play
      = 100 := by
  have hpre : ∀ k,
      k ≤ ([AudioOp.write 4096, AudioOp.drain, AudioOp.write 100]).length →
      drainedBytes 4096
          (([AudioOp.write 4096, AudioOp.drain, AudioOp.write 100]).take k) ≤
        writtenBytes
          (([AudioOp.write 4096, AudioOp.drain, AudioOp.write 100]).take k) := by
    intro k hk
    simp only [List.length_cons, List.length_nil] at hk
    interval_cases k <;> decide
  have h := conservation 44100 2 2 4096
    [AudioOp.write 4096, AudioOp.drain, AudioOp.write 100] (by decide) hpre
  rw [h]
  decide

end AudioPlayer

end GLFWDriver
